import Mathlib

/-!
# TankController: the orchestrator tick and the two-phase UI state transition

Shallow embedding of `src/src/TankControllerLib.cpp` (version 21.06.1).

* Machine integers are natural numbers; `uint32_t` results are reduced modulo `2^32`
  and `uint16_t` casts modulo `2^16`.
* `float` values are only forwarded by the orchestrator, never computed with; they are
  carried as their bit pattern.
* The virtual methods `handleKey`, `start` and `loop` of the `UIState` subclasses have their
  bodies outside `src/`; they are parameters (`Hooks`).  A hook sees the two state slots of the
  orchestrator (the only members reachable through its public interface) and either returns
  the slots it leaves behind or fails an assertion.
* `assert` failures are fatal: every function that can fail returns an `Outcome`, whose
  `abort` case carries the orchestrator as it was when the assertion fired.
* Calls made on collaborators (keypad states, controllers, SD card, ...) are recorded, in
  order, in a ghost field `trace`.
-/

namespace TankController

/-! ## Data model -/

/-- Bit pattern of a C `float`; the orchestrator forwards such values unchanged. -/
structure CFloat where
  bits : Nat
deriving DecidableEq, Repr

/-- A heap object of a `UIState` subclass as the orchestrator sees it: its address (pointer
identity) and the results of the two constant virtual getters `name()` and
`isInCalibration()`. -/
structure UIState where
  addr : Nat
  name : String
  isInCalibration : Bool
deriving DecidableEq, Repr

/-- Modelled from the spec: `UIState/MainMenu.h` is not under `src/`; the name is the one the
SetKP test expects, and `isInCalibration()` is the default `false` of the base class. -/
def MainMenu (addr : Nat) : UIState := ⟨addr, "MainMenu", false⟩

/-- Modelled from the spec: the class `Wait` is not under `src/`; the name is the one the SetKP
test expects, and `isInCalibration()` is the default `false` of the base class. -/
def Wait (addr : Nat) : UIState := ⟨addr, "Wait", false⟩

/-- The class of `UIState/SetKP.h`: `name()` returns "SetKP", `isInCalibration()` is inherited. -/
def SetKP (addr : Nat) : UIState := ⟨addr, "SetKP", false⟩

/-- The class of `UIState/SeeDeviceAddress.h`. -/
def SeeDeviceAddress (addr : Nat) : UIState := ⟨addr, "SeeDeviceAddress", false⟩

/-- The class of `UIState/PHCalibrationHigh.h`: `isInCalibration()` is overridden to `true`. -/
def PHCalibrationHigh (addr : Nat) : UIState := ⟨addr, "PHCalibrationHigh", true⟩

/-- Value of `DateTime_TC::now()`. -/
structure DateTime where
  month : Nat
  day : Nat
  year : Nat
  hour : Nat
  minute : Nat
  second : Nat
deriving DecidableEq, Repr

/-- Everything one call of `loop()` reads from its collaborators. -/
structure Env where
  /-- result of `Keypad_TC::instance()->getKey()` -/
  key : Char
  /-- result of `millis()` in `blink` -/
  millisBlink : Nat
  /-- result of `millis()` in `handleUI` -/
  millisUI : Nat
  /-- result of `millis()` stored in `msNow` by `writeDataToSD` -/
  msNow : Nat
  /-- result of `millis()` inside the `snprintf` of `writeDataToSD` -/
  millisRow : Nat
  /-- result of `TempProbe_TC::instance()->getRunningAverage()` -/
  tempRunningAverage : CFloat
  /-- result of `PHProbe::instance()->getPh()` -/
  ph : CFloat
  dtNow : DateTime
  tankId : Nat
  targetTemperature : CFloat
  targetPh : CFloat
  kp : CFloat
  ki : CFloat
  kd : CFloat
deriving DecidableEq, Repr

/-- The arguments of the `snprintf` that builds one log row, in order. -/
structure LogRow where
  month : Nat
  day : Nat
  year : Nat
  hour : Nat
  minute : Nat
  second : Nat
  tankId : Nat
  currentTemp : String
  targetTemperature : CFloat
  currentPh : String
  targetPh : CFloat
  seconds : Nat
  kp : CFloat
  ki : CFloat
  kd : CFloat
deriving DecidableEq, Repr

/-- Calls the orchestrator makes on its collaborators. -/
inductive Event where
  | digitalWrite (high : Bool)
  | handleKey (s : UIState) (key : Char)
  | setNextState (newState : UIState) (update : Bool)
  | delete (s : UIState)
  | start (s : UIState)
  | loop (s : UIState)
  | updateTemperatureControl (value : CFloat)
  | updatePHControl (value : CFloat)
  | appendData (header : String) (row : LogRow)
  | pushingBoxLoop
deriving DecidableEq, Repr

/-- The members `state` and `nextState`, which a UIState can reach through the public
interface of the orchestrator. -/
structure Slots where
  state : UIState
  nextState : Option UIState
deriving DecidableEq, Repr

/-- Bodies of the virtual methods of the UIState subclasses (outside `src/`): given the
receiver, the arguments, what the method can read and the slots on entry, the slots on
return, or `none` when an assertion fails inside the method. -/
structure Hooks where
  handleKey : UIState → Char → Env → Slots → Option Slots
  start : UIState → Env → Slots → Option Slots
  loop : UIState → Env → Slots → Option Slots

/-- Declarations of `TankControllerLib.h` and of the C library that the code uses and that
are not under `src/`. -/
structure Platform where
  /-- the constant `IDLE_TIMEOUT`, in milliseconds -/
  IDLE_TIMEOUT : Nat
  /-- text that `printf` produces for one `float` under a conversion such as `%4.2f` -/
  formatFloat : String → CFloat → String

/-- The singleton: its members `state`, `nextState`, `lastKeypadTime`, the function-local
static `nextWriteTime` of `writeDataToSD`, and the ghost `trace`. -/
structure TankControllerLib where
  state : UIState
  nextState : Option UIState
  lastKeypadTime : Nat
  nextWriteTime : Nat
  trace : List Event
deriving DecidableEq, Repr

/-- Result of a call that may fail an `assert`. -/
inductive Outcome where
  | ok (tc : TankControllerLib)
  | abort (tc : TankControllerLib)
deriving DecidableEq, Repr

/-- The orchestrator a call ends with, whether it returned or aborted. -/
def Outcome.tc : Outcome → TankControllerLib
  | .ok tc => tc
  | .abort tc => tc

/-! ## Helpers of the embedding -/

/-- Reduction to `uint32_t`. -/
def u32 (n : Nat) : Nat := n % 4294967296

/-- Reduction to `uint16_t`. -/
def u16 (n : Nat) : Nat := n % 65536

/-- Unsigned 32-bit subtraction `a - b`. -/
def sub32 (a b : Nat) : Nat := (u32 a + 4294967296 - u32 b) % 4294967296

/-- The keypad library's `NO_KEY`, the NUL character. -/
def NO_KEY : Char := Char.ofNat 0

/-- Effect of `snprintf(buf, size, ...)` on text that is already formatted: at most
`size - 1` characters are stored. -/
def snprintf (size : Nat) (s : String) : String := ⟨s.data.take (size - 1)⟩

/-- Record a call in the trace. -/
def note (tc : TankControllerLib) (e : Event) : TankControllerLib :=
  { tc with trace := tc.trace ++ [e] }

/-- Sequencing of fallible steps: an abort ends the run. -/
def Outcome.andThen (r : Outcome) (f : TankControllerLib → Outcome) : Outcome :=
  match r with
  | .ok tc => f tc
  | .abort tc => .abort tc

/-- Invoke a virtual method of a UIState: the slots become what the method leaves, or the
program aborts inside it. -/
def callHook (tc : TankControllerLib) (body : Slots → Option Slots) : Outcome :=
  match body ⟨tc.state, tc.nextState⟩ with
  | some sl => .ok { tc with state := sl.state, nextState := sl.nextState }
  | none => .abort tc

/-- Address returned by `new MainMenu(this)`.  The allocator never returns the address of a
live object; on the only path that allocates, `nextState` is null, so `state` is the only
live UIState the orchestrator holds. -/
def freshAddr (tc : TankControllerLib) : Nat := tc.state.addr + 1

/-! ## The functions of `TankControllerLib.cpp` -/

/-- Modelled from the spec: the constructor sets `state = new MainMenu(this)`; the initial
values of `nextState` (null) and `lastKeypadTime` (zero) are member initialisers of
`TankControllerLib.h`, which is not under `src/`; `nextWriteTime` is the static of
`writeDataToSD`, initialised to zero there. -/
def construct : TankControllerLib :=
  { state := MainMenu 0, nextState := none, lastKeypadTime := 0, nextWriteTime := 0, trace := [] }

/-- Embedding of `TankControllerLib::blink`. -/
def blink (env : Env) (tc : TankControllerLib) : TankControllerLib :=
  if u32 env.millisBlink / 1000 % 2 ≠ 0 then
    note tc (.digitalWrite false)
  else
    note tc (.digitalWrite true)

/-- Embedding of `TankControllerLib::isInCalibration`. -/
def isInCalibration (tc : TankControllerLib) : Bool :=
  tc.state.isInCalibration

/-- Embedding of `TankControllerLib::stateName`. -/
def stateName (tc : TankControllerLib) : String :=
  tc.state.name

/-- Embedding of `TankControllerLib::updateState`. -/
def updateState (H : Hooks) (env : Env) (tc : TankControllerLib) : Outcome :=
  match tc.nextState with
  | some next =>
    if tc.state.addr = next.addr then
      .abort tc                                   -- assert(state != nextState)
    else
      let tc1 := note tc (.delete tc.state)       -- delete state
      let tc2 := { tc1 with state := next, nextState := none }
      callHook (note tc2 (.start next)) (H.start next env)   -- state->start()
  | none => .ok tc

/-- Embedding of `TankControllerLib::setNextState`. -/
def setNextState (H : Hooks) (env : Env) (tc : TankControllerLib) (newState : UIState)
    (update : Bool) : Outcome :=
  let tc0 := note tc (.setNextState newState update)
  match tc0.nextState with
  | some _ => .abort tc0                          -- assert(nextState == nullptr)
  | none =>
    let tc1 := { tc0 with nextState := some newState }
    if update then updateState H env tc1 else .ok tc1

/-- First part of `TankControllerLib::handleUI` (the `if (key == NO_KEY) ... else ...`
statement).  The one-argument call `setNextState(new MainMenu(this))` uses the default of
`update`, declared in the header; it is `false` here (with `true` the tick ends in the same
orchestrator, because `updateState` runs right after either way). -/
def keypadStep (P : Platform) (H : Hooks) (env : Env) (tc : TankControllerLib) : Outcome :=
  let key := env.key
  if key = NO_KEY then
    if tc.lastKeypadTime = 0 then
      .ok tc       -- we have already reached an idle state, so don't do other checks
    else if isInCalibration tc then
      .ok tc       -- we are in calibration, so don't return to main menu
    else if tc.nextState.isSome then
      .ok tc       -- we already have a next state teed-up
    else if sub32 env.millisUI tc.lastKeypadTime > P.IDLE_TIMEOUT then
      (setNextState H env tc (MainMenu (freshAddr tc)) false).andThen
        fun tc1 => .ok { tc1 with lastKeypadTime := 0 }
    else
      .ok tc
  else
    (callHook (note tc (.handleKey tc.state key)) (H.handleKey tc.state key env)).andThen
      fun tc1 => .ok { tc1 with lastKeypadTime := u32 env.millisUI }

/-- Last statement of `TankControllerLib::handleUI`: `state->loop()`. -/
def loopStep (H : Hooks) (env : Env) (tc : TankControllerLib) : Outcome :=
  callHook (note tc (.loop tc.state)) (H.loop tc.state env)

/-- Embedding of `TankControllerLib::handleUI`: the keypad statement, then `updateState()`,
then `state->loop()`. -/
def handleUI (P : Platform) (H : Hooks) (env : Env) (tc : TankControllerLib) : Outcome :=
  ((keypadStep P H env tc).andThen (updateState H env)).andThen (loopStep H env)

/-- Embedding of `TankControllerLib::updateControls`. -/
def updateControls (env : Env) (tc : TankControllerLib) : TankControllerLib :=
  note (note tc (.updateTemperatureControl env.tempRunningAverage)) (.updatePHControl env.ph)

/-- The string constant `header` of `writeDataToSD`. -/
def header : String := "time,tankid,temp,temp setpoint,pH,pH setpoint,onTime,Kp,Ki,Kd"

/-- The text `writeDataToSD` puts in `currentTemp`; `inCalibration` is the value of
`isInCalibration()` at that point. -/
def currentTemp (P : Platform) (env : Env) (inCalibration : Bool) : String :=
  if inCalibration then snprintf 10 "C"
  else snprintf 10 (P.formatFloat "%4.2f" env.tempRunningAverage)

/-- The text `writeDataToSD` puts in `currentPh`. -/
def currentPh (P : Platform) (env : Env) (inCalibration : Bool) : String :=
  if inCalibration then snprintf 10 "C"
  else snprintf 10 (P.formatFloat "%5.3f" env.ph)

/-- The arguments `writeDataToSD` passes to the `snprintf` of the row. -/
def logRow (P : Platform) (env : Env) (inCalibration : Bool) : LogRow :=
  { month := u16 env.dtNow.month, day := u16 env.dtNow.day, year := u16 env.dtNow.year,
    hour := u16 env.dtNow.hour, minute := u16 env.dtNow.minute, second := u16 env.dtNow.second,
    tankId := u16 env.tankId,
    currentTemp := currentTemp P env inCalibration,
    targetTemperature := env.targetTemperature,
    currentPh := currentPh P env inCalibration,
    targetPh := env.targetPh,
    seconds := u16 (u32 env.millisRow / 1000),
    kp := env.kp, ki := env.ki, kd := env.kd }

/-- Embedding of `TankControllerLib::writeDataToSD`. -/
def writeDataToSD (P : Platform) (env : Env) (tc : TankControllerLib) : TankControllerLib :=
  let msNow := u32 env.msNow
  if tc.nextWriteTime ≤ msNow then
    { note tc (.appendData header (logRow P env (isInCalibration tc))) with
      nextWriteTime := u32 (msNow / 1000 * 1000 + 1000) }   -- round up to next second
  else
    tc

/-- Embedding of `TankControllerLib::loop`. -/
def loop (P : Platform) (H : Hooks) (env : Env) (tc : TankControllerLib) : Outcome :=
  (handleUI P H env (blink env tc)).andThen fun tc1 =>
    .ok (note (writeDataToSD P env (updateControls env tc1)) .pushingBoxLoop)

/-- Successive calls of `loop()`, one per element of `envs`; an abort ends the run. -/
def run (P : Platform) (H : Hooks) : TankControllerLib → List Env → Outcome
  | tc, [] => .ok tc
  | tc, env :: envs => (loop P H env tc).andThen fun tc1 => run P H tc1 envs

/-- Calls of `updateControl` on one of the two Time-Proportional Controllers. -/
def isControlUpdate : Event → Bool
  | .updateTemperatureControl _ => true
  | .updatePHControl _ => true
  | _ => false

/-- Calls of `setNextState` made by the orchestrator itself. -/
def isRequest : Event → Bool
  | .setNextState _ _ => true
  | _ => false

/-- Calls of `SD_TC::appendData`, one per emitted log row. -/
def isAppend : Event → Bool
  | .appendData _ _ => true
  | _ => false

/-- The condition under which the keypad statement of `handleUI`, reached with no key
pressed, requests the return to the main menu. -/
def idleDue (P : Platform) (env : Env) (tc : TankControllerLib) : Prop :=
  tc.lastKeypadTime ≠ 0 ∧ isInCalibration tc = false ∧ tc.nextState = none ∧
    sub32 env.millisUI tc.lastKeypadTime > P.IDLE_TIMEOUT

/-- The calls recorded since the orchestrator was `before`. -/
def since (before after : TankControllerLib) : List Event :=
  after.trace.drop before.trace.length

/-- Clock values `msNow` of the ticks of a run on which a log row was emitted; the run ends
at the first tick that aborts. -/
def rowTimes (P : Platform) (H : Hooks) : TankControllerLib → List Env → List Nat
  | _, [] => []
  | tc, env :: envs =>
    match loop P H env tc with
    | .abort _ => []
    | .ok tc1 =>
      (if (since tc tc1).any isAppend then [u32 env.msNow] else []) ++ rowTimes P H tc1 envs

/-- The cadence rule in words, for a run of ticks given by their clock values: the first
tick emits; a later tick emits exactly when its clock value lies in a later whole second than
the clock value `last` of the previous emission. -/
def cadenceSpec : Option Nat → List Nat → List Nat
  | _, [] => []
  | none, t :: ts => t :: cadenceSpec (some t) ts
  | some last, t :: ts =>
    if last / 1000 < t / 1000 then t :: cadenceSpec (some t) ts else cadenceSpec (some last) ts

/-! ## Concrete collaborators used in examples -/

/-- Hooks that leave both slots as they are. -/
def idleHooks : Hooks :=
  { handleKey := fun _ _ _ sl => some sl
    start := fun _ _ sl => some sl
    loop := fun _ _ sl => some sl }

/-- A platform with a one-minute idle timeout. -/
def demoPlatform : Platform :=
  { IDLE_TIMEOUT := 60000
    formatFloat := fun conversion _ => if conversion = "%4.2f" then "0.00" else "0.000" }

/-- An environment with no key pressed and every clock read equal to `ms`. -/
def quietEnv (ms : Nat) : Env :=
  { key := NO_KEY, millisBlink := ms, millisUI := ms, msNow := ms, millisRow := ms,
    tempRunningAverage := ⟨0⟩, ph := ⟨0⟩, dtNow := ⟨1, 1, 2021, 0, 0, 0⟩, tankId := 1,
    targetTemperature := ⟨0⟩, targetPh := ⟨0⟩, kp := ⟨0⟩, ki := ⟨0⟩, kd := ⟨0⟩ }

/-- An environment in which `key` is pressed and every clock read equals `ms`. -/
def pressedEnv (ms : Nat) (key : Char) : Env :=
  { quietEnv ms with key := key }

/-- Hooks whose key handler requests a transition to `s` and that otherwise leave the
slots alone. -/
def requestingHooks (s : UIState) : Hooks :=
  { idleHooks with handleKey := fun _ _ _ sl => some ⟨sl.state, some s⟩ }

/-- An orchestrator whose current state is `s`, nothing pending, last key at `last`. -/
def holding (s : UIState) (last : Nat) : TankControllerLib :=
  { state := s, nextState := none, lastKeypadTime := last, nextWriteTime := 0, trace := [] }


/-! ## Basic facts about the embedding -/

@[simp] theorem andThen_ok (tc : TankControllerLib) (f : TankControllerLib → Outcome) :
    (Outcome.ok tc).andThen f = f tc := rfl

@[simp] theorem andThen_abort (tc : TankControllerLib) (f : TankControllerLib → Outcome) :
    (Outcome.abort tc).andThen f = .abort tc := rfl

/-- With nothing pending `updateState` does nothing. -/
theorem updateState_none (H : Hooks) (env : Env) (tc : TankControllerLib)
    (h : tc.nextState = none) : updateState H env tc = .ok tc := by
  simp [updateState, h]

/-- With a pending state that is another object, `updateState` releases the current state,
swaps and calls the entry hook of the new one. -/
theorem updateState_some (H : Hooks) (env : Env) (tc : TankControllerLib) (p : UIState)
    (h : tc.nextState = some p) (hne : tc.state.addr ≠ p.addr) :
    updateState H env tc =
      callHook { tc with state := p, nextState := none,
                         trace := tc.trace ++ [.delete tc.state, .start p] }
        (H.start p env) := by
  simp [updateState, h, hne, note]

/-- What `callHook` can change: the two slots only. -/
theorem callHook_tc (tc : TankControllerLib) (body : Slots → Option Slots) :
    (callHook tc body).tc.trace = tc.trace ∧
    (callHook tc body).tc.lastKeypadTime = tc.lastKeypadTime ∧
    (callHook tc body).tc.nextWriteTime = tc.nextWriteTime := by
  unfold callHook
  split <;> simp [Outcome.tc]

/-- What `updateState` records: nothing, or the release of the old state followed by the
entry hook of the new one. -/
theorem updateState_tc (H : Hooks) (env : Env) (tc : TankControllerLib) :
    (updateState H env tc).tc.lastKeypadTime = tc.lastKeypadTime ∧
    (updateState H env tc).tc.nextWriteTime = tc.nextWriteTime ∧
    ((updateState H env tc).tc.trace = tc.trace ∨
      ∃ p, tc.nextState = some p ∧
        (updateState H env tc).tc.trace = tc.trace ++ [.delete tc.state, .start p]) := by
  cases hn : tc.nextState with
  | none => simp [updateState, hn, Outcome.tc]
  | some p =>
    by_cases hsame : tc.state.addr = p.addr
    · simp [updateState, hn, hsame, Outcome.tc]
    · rw [updateState_some H env tc p hn hsame]
      obtain ⟨h1, h2, h3⟩ := callHook_tc
        { tc with state := p, nextState := none,
                  trace := tc.trace ++ [.delete tc.state, .start p] } (H.start p env)
      exact ⟨h2, h3, Or.inr ⟨p, rfl, h1⟩⟩

/-- What `loopStep` records: the call of the per-tick hook. -/
theorem loopStep_tc (H : Hooks) (env : Env) (tc : TankControllerLib) :
    (loopStep H env tc).tc.trace = tc.trace ++ [.loop tc.state] ∧
    (loopStep H env tc).tc.lastKeypadTime = tc.lastKeypadTime ∧
    (loopStep H env tc).tc.nextWriteTime = tc.nextWriteTime := by
  obtain ⟨h1, h2, h3⟩ := callHook_tc (note tc (.loop tc.state)) (H.loop tc.state env)
  exact ⟨h1, h2, h3⟩

/-- The three ways the keypad statement of `handleUI` can go. -/
theorem keypadStep_cases (P : Platform) (H : Hooks) (env : Env) (tc : TankControllerLib) :
    (env.key = NO_KEY ∧ keypadStep P H env tc = .ok tc ∧ ¬ idleDue P env tc) ∨
    (env.key = NO_KEY ∧ tc.lastKeypadTime ≠ 0 ∧ isInCalibration tc = false ∧
      tc.nextState = none ∧ sub32 env.millisUI tc.lastKeypadTime > P.IDLE_TIMEOUT ∧
      keypadStep P H env tc
        = .ok { tc with nextState := some (MainMenu (freshAddr tc)), lastKeypadTime := 0,
                        trace := tc.trace ++ [.setNextState (MainMenu (freshAddr tc)) false] }) ∨
    (env.key ≠ NO_KEY ∧
      (keypadStep P H env tc).tc.trace = tc.trace ++ [.handleKey tc.state env.key] ∧
      (keypadStep P H env tc).tc.nextWriteTime = tc.nextWriteTime) := by
  by_cases hk : env.key = NO_KEY
  · by_cases h0 : tc.lastKeypadTime = 0
    · left; simp [keypadStep, hk, h0, idleDue]
    · by_cases hc : isInCalibration tc = true
      · left; simp [keypadStep, hk, h0, hc, idleDue]
      · cases hn : tc.nextState with
        | some q => left; simp [keypadStep, hk, h0, hc, hn, idleDue]
        | none =>
          by_cases ht : sub32 env.millisUI tc.lastKeypadTime > P.IDLE_TIMEOUT
          · right; left
            refine ⟨hk, h0, by simpa using hc, rfl, ht, ?_⟩
            simp [keypadStep, hk, h0, hc, hn, ht, setNextState, note]
          · left; simp [keypadStep, hk, h0, hc, hn, ht, idleDue]
  · right; right
    refine ⟨hk, ?_⟩
    obtain ⟨h1, _, h3⟩ :=
      callHook_tc (note tc (.handleKey tc.state env.key)) (H.handleKey tc.state env.key env)
    simp only [keypadStep, hk, if_false]
    cases hc : callHook (note tc (.handleKey tc.state env.key))
        (H.handleKey tc.state env.key env) with
    | ok t => rw [hc] at h1 h3; simpa [Outcome.tc, note] using ⟨h1, h3⟩
    | abort t => rw [hc] at h1 h3; simpa [Outcome.tc, note] using ⟨h1, h3⟩

/-- What the second and third statement of `handleUI` record, in order: the application of
a pending transition (if any), then the per-tick hook (reached unless the program aborted). -/
theorem applyAndLoop_tc (H : Hooks) (env : Env) (t : TankControllerLib) :
    ∃ mid fin,
      (((updateState H env t).andThen (loopStep H env)).tc.trace = t.trace ++ mid ++ fin) ∧
      ((updateState H env t).andThen (loopStep H env)).tc.lastKeypadTime = t.lastKeypadTime ∧
      ((updateState H env t).andThen (loopStep H env)).tc.nextWriteTime = t.nextWriteTime ∧
      (mid = [] ∨ ∃ a b, mid = [Event.delete a, Event.start b]) ∧
      (fin = [] ∨ ∃ st, fin = [Event.loop st]) ∧
      (∀ t1, (updateState H env t).andThen (loopStep H env) = .ok t1 →
        ∃ st, fin = [Event.loop st]) := by
  obtain ⟨u1, u2, u3⟩ := updateState_tc H env t
  have hmid : ∃ mid, (updateState H env t).tc.trace = t.trace ++ mid ∧
      (mid = [] ∨ ∃ a b, mid = [Event.delete a, Event.start b]) := by
    rcases u3 with h | ⟨p, _, h⟩
    · exact ⟨[], by simpa using h, Or.inl rfl⟩
    · exact ⟨_, h, Or.inr ⟨_, _, rfl⟩⟩
  obtain ⟨mid, hm, hmidOK⟩ := hmid
  cases hu : updateState H env t with
  | abort t1 =>
    rw [hu] at u1 u2 hm
    refine ⟨mid, [], ?_, ?_, ?_, hmidOK, Or.inl rfl, ?_⟩
    · simpa [Outcome.tc] using hm
    · simpa [Outcome.tc] using u1
    · simpa [Outcome.tc] using u2
    · intro t2 h
      simp at h
  | ok t1 =>
    rw [hu] at u1 u2 hm
    simp only [Outcome.tc] at u1 u2 hm
    obtain ⟨l1, l2, l3⟩ := loopStep_tc H env t1
    refine ⟨mid, [Event.loop t1.state], ?_, ?_, ?_, hmidOK, Or.inr ⟨_, rfl⟩, ?_⟩
    · rw [andThen_ok, l1, hm]
    · rw [andThen_ok, l2, u1]
    · rw [andThen_ok, l3, u2]
    · intro _ _
      exact ⟨_, rfl⟩

/-- Shape of what one call of `handleUI` records, whether it returns or aborts: first the
keypad statement (`pre`: nothing, the idle request, or the key handler), then the application
of the pending transition (`mid`), then the per-tick hook (`fin`). -/
theorem handleUI_tc (P : Platform) (H : Hooks) (env : Env) (tc : TankControllerLib) :
    ∃ pre mid fin,
      (handleUI P H env tc).tc.trace = tc.trace ++ pre ++ mid ++ fin ∧
      (handleUI P H env tc).tc.nextWriteTime = tc.nextWriteTime ∧
      ((env.key = NO_KEY ∧ pre = [] ∧
          (handleUI P H env tc).tc.lastKeypadTime = tc.lastKeypadTime ∧ ¬ idleDue P env tc) ∨
        (env.key = NO_KEY ∧ tc.lastKeypadTime ≠ 0 ∧ isInCalibration tc = false ∧
          tc.nextState = none ∧ sub32 env.millisUI tc.lastKeypadTime > P.IDLE_TIMEOUT ∧
          pre = [Event.setNextState (MainMenu (freshAddr tc)) false] ∧
          (handleUI P H env tc).tc.lastKeypadTime = 0) ∨
        (env.key ≠ NO_KEY ∧ pre = [Event.handleKey tc.state env.key])) ∧
      (mid = [] ∨ ∃ a b, mid = [Event.delete a, Event.start b]) ∧
      (fin = [] ∨ ∃ st, fin = [Event.loop st]) ∧
      (∀ t1, handleUI P H env tc = .ok t1 → ∃ st, fin = [Event.loop st]) := by
  rcases keypadStep_cases P H env tc with
    ⟨hk, hstep, hq⟩ | ⟨hk, h0, hc, hn, ht, hstep⟩ | ⟨hk, htr, hnw⟩
  · obtain ⟨mid, fin, a1, a2, a3, a4, a5, a6⟩ := applyAndLoop_tc H env tc
    refine ⟨[], mid, fin, ?_, ?_, Or.inl ⟨hk, rfl, ?_, hq⟩, a4, a5, ?_⟩
    · simpa [handleUI, hstep] using a1
    · simpa [handleUI, hstep] using a3
    · simpa [handleUI, hstep] using a2
    · simpa [handleUI, hstep] using a6
  · obtain ⟨mid, fin, a1, a2, a3, a4, a5, a6⟩ := applyAndLoop_tc H env
      { tc with nextState := some (MainMenu (freshAddr tc)), lastKeypadTime := 0,
                trace := tc.trace ++ [.setNextState (MainMenu (freshAddr tc)) false] }
    refine ⟨_, mid, fin, ?_, ?_, Or.inr (Or.inl ⟨hk, h0, hc, hn, ht, rfl, ?_⟩), a4, a5, ?_⟩
    · simpa [handleUI, hstep] using a1
    · simpa [handleUI, hstep] using a3
    · simpa [handleUI, hstep] using a2
    · simpa [handleUI, hstep] using a6
  · cases hs : keypadStep P H env tc with
    | abort t =>
      rw [hs] at htr hnw
      refine ⟨_, [], [], ?_, ?_, Or.inr (Or.inr ⟨hk, rfl⟩), Or.inl rfl, Or.inl rfl, ?_⟩
      · simpa [handleUI, hs, Outcome.tc] using htr
      · simpa [handleUI, hs, Outcome.tc] using hnw
      · intro t1 h
        simp [handleUI, hs] at h
    | ok t =>
      rw [hs] at htr hnw
      simp only [Outcome.tc] at htr hnw
      obtain ⟨mid, fin, a1, _, a3, a4, a5, a6⟩ := applyAndLoop_tc H env t
      refine ⟨_, mid, fin, ?_, ?_, Or.inr (Or.inr ⟨hk, rfl⟩), a4, a5, ?_⟩
      · simp only [handleUI, hs, andThen_ok]
        rw [a1, htr]
      · simp only [handleUI, hs, andThen_ok]
        rw [a3, hnw]
      · simpa [handleUI, hs] using a6

/-- The only effect of `blink` is one write of the LED pin. -/
theorem blink_eq (env : Env) (tc : TankControllerLib) :
    blink env tc
      = { tc with trace := tc.trace ++ [.digitalWrite (decide (u32 env.millisBlink / 1000 % 2 = 0))] } := by
  unfold blink note
  by_cases h : u32 env.millisBlink / 1000 % 2 = 0 <;> simp [h]

/-- The function `writeDataToSD` leaves the slots and `lastKeypadTime` alone and records at
most one `appendData`. -/
theorem writeDataToSD_trace (P : Platform) (env : Env) (tc : TankControllerLib) :
    (writeDataToSD P env tc).state = tc.state ∧
    (writeDataToSD P env tc).nextState = tc.nextState ∧
    (writeDataToSD P env tc).lastKeypadTime = tc.lastKeypadTime ∧
    (writeDataToSD P env tc).trace = tc.trace ++
      (if tc.nextWriteTime ≤ u32 env.msNow then
        [Event.appendData header (logRow P env (isInCalibration tc))] else []) := by
  unfold writeDataToSD note
  by_cases h : tc.nextWriteTime ≤ u32 env.msNow <;> simp [h]

/-- Shape of what one completed call of `loop` records, in order: the LED write, the keypad
statement, the application of the pending transition, the per-tick hook, the two controller
updates, the log row (when one is due) and the network relay. -/
theorem loop_shape (P : Platform) (H : Hooks) (env : Env) (tc tc1 : TankControllerLib)
    (h : loop P H env tc = .ok tc1) :
    ∃ pre mid st,
      tc1.trace = tc.trace
        ++ [Event.digitalWrite (decide (u32 env.millisBlink / 1000 % 2 = 0))]
        ++ pre ++ mid ++ [Event.loop st]
        ++ [Event.updateTemperatureControl env.tempRunningAverage, Event.updatePHControl env.ph]
        ++ (if tc.nextWriteTime ≤ u32 env.msNow then
              [Event.appendData header (logRow P env (isInCalibration tc1))] else [])
        ++ [Event.pushingBoxLoop] ∧
      ((env.key = NO_KEY ∧ pre = [] ∧ tc1.lastKeypadTime = tc.lastKeypadTime) ∨
        (env.key = NO_KEY ∧ tc.lastKeypadTime ≠ 0 ∧ isInCalibration tc = false ∧
          tc.nextState = none ∧ sub32 env.millisUI tc.lastKeypadTime > P.IDLE_TIMEOUT ∧
          pre = [Event.setNextState (MainMenu (freshAddr tc)) false] ∧
          tc1.lastKeypadTime = 0) ∨
        (env.key ≠ NO_KEY ∧ pre = [Event.handleKey tc.state env.key])) ∧
      (mid = [] ∨ ∃ a b, mid = [Event.delete a, Event.start b]) := by
  obtain ⟨pre, mid, fin, a1, a2, a3, a4, _, a6⟩ := handleUI_tc P H env (blink env tc)
  cases hu : handleUI P H env (blink env tc) with
  | abort t => simp [loop, hu] at h
  | ok t =>
    obtain ⟨st, hfin⟩ := a6 t hu
    rw [hu] at a1 a2 a3
    simp only [Outcome.tc] at a1 a2 a3
    simp only [loop, hu, andThen_ok, Outcome.ok.injEq] at h
    obtain ⟨w1, _, w3, w4⟩ := writeDataToSD_trace P env (updateControls env t)
    have hb := blink_eq env tc
    subst h
    have hcal : isInCalibration (note (writeDataToSD P env (updateControls env t))
        Event.pushingBoxLoop) = isInCalibration (updateControls env t) := by
      simp [isInCalibration, note, w1]
    refine ⟨pre, mid, st, ?_, ?_, a4⟩
    · rw [hcal]
      simp only [note, w4]
      simp [updateControls, note, a1, a2, hb, hfin]
    · have hlk : (note (writeDataToSD P env (updateControls env t))
          Event.pushingBoxLoop).lastKeypadTime = t.lastKeypadTime := by
        show (writeDataToSD P env (updateControls env t)).lastKeypadTime = t.lastKeypadTime
        rw [w3]; rfl
      rw [hlk]
      rcases a3 with ⟨hk, hp, hl, _⟩ | ⟨hk, h0, hc, hn, ht, hp, hl⟩ | ⟨hk, hp⟩
      · exact Or.inl ⟨hk, hp, by simpa [hb] using hl⟩
      · exact Or.inr (Or.inl ⟨hk, by simpa [hb] using h0, by simpa [hb, isInCalibration] using hc,
          by simpa [hb] using hn, by simpa [hb] using ht, by simpa [hb, freshAddr] using hp, hl⟩)
      · exact Or.inr (Or.inr ⟨hk, by simpa [hb] using hp⟩)

/-- The requests the orchestrator itself records during one call of `loop`, returned or
aborted: none, except the single idle request, which leaves `lastKeypadTime` zero. -/
theorem loop_requests (P : Platform) (H : Hooks) (env : Env) (tc : TankControllerLib) :
    ∃ seg, (loop P H env tc).tc.trace = tc.trace ++ seg ∧
      ((env.key = NO_KEY ∧ (loop P H env tc).tc.lastKeypadTime = tc.lastKeypadTime ∧
          seg.filter isRequest = [] ∧ ¬ idleDue P env tc) ∨
        (env.key = NO_KEY ∧ tc.lastKeypadTime ≠ 0 ∧ isInCalibration tc = false ∧
          tc.nextState = none ∧ sub32 env.millisUI tc.lastKeypadTime > P.IDLE_TIMEOUT ∧
          (loop P H env tc).tc.lastKeypadTime = 0 ∧
          seg.filter isRequest = [Event.setNextState (MainMenu (freshAddr tc)) false]) ∨
        (env.key ≠ NO_KEY ∧ seg.filter isRequest = [])) := by
  obtain ⟨pre, mid, fin, a1, _, a3, a4, a5, _⟩ := handleUI_tc P H env (blink env tc)
  have hb := blink_eq env tc
  have hmid : mid.filter isRequest = [] := by
    rcases a4 with hm | ⟨a, b, hm⟩ <;> simp [hm, isRequest]
  have hfin : fin.filter isRequest = [] := by
    rcases a5 with hf | ⟨st, hf⟩ <;> simp [hf, isRequest]
  -- the part of the tick after `handleUI`
  have htail : ∃ tail, (loop P H env tc).tc.trace
        = (handleUI P H env (blink env tc)).tc.trace ++ tail ∧
      (loop P H env tc).tc.lastKeypadTime
        = (handleUI P H env (blink env tc)).tc.lastKeypadTime ∧
      tail.filter isRequest = [] := by
    cases hu : handleUI P H env (blink env tc) with
    | abort t => exact ⟨[], by simp [loop, hu, Outcome.tc]⟩
    | ok t =>
      obtain ⟨_, _, w3, w4⟩ := writeDataToSD_trace P env (updateControls env t)
      refine ⟨[Event.updateTemperatureControl env.tempRunningAverage,
                Event.updatePHControl env.ph]
              ++ (if (updateControls env t).nextWriteTime ≤ u32 env.msNow then
                    [Event.appendData header
                      (logRow P env (isInCalibration (updateControls env t)))] else [])
              ++ [Event.pushingBoxLoop], ?_, ?_, ?_⟩
      · simp only [loop, hu, andThen_ok, Outcome.tc, note, w4]
        simp [updateControls, note]
      · simp only [loop, hu, andThen_ok, Outcome.tc, note, w3]
        rfl
      · split <;> simp [isRequest]
  obtain ⟨tail, t1, t2, t3⟩ := htail
  refine ⟨[Event.digitalWrite (decide (u32 env.millisBlink / 1000 % 2 = 0))]
      ++ pre ++ mid ++ fin ++ tail, ?_, ?_⟩
  · rw [t1, a1, hb]
    simp
  · rw [t2]
    rcases a3 with ⟨hk, hp, hl, hq⟩ | ⟨hk, h0, hc, hn, ht, hp, hl⟩ | ⟨hk, hp⟩
    · left
      refine ⟨hk, by simpa [hb] using hl, ?_, by simpa [hb, idleDue, isInCalibration] using hq⟩
      simp [List.filter_append, hp, hmid, hfin, t3, isRequest]
    · right; left
      refine ⟨hk, by simpa [hb] using h0, by simpa [hb, isInCalibration] using hc,
        by simpa [hb] using hn, by simpa [hb] using ht, hl, ?_⟩
      simp [List.filter_append, hp, hmid, hfin, t3, isRequest, hb, freshAddr]
    · right; right
      refine ⟨hk, ?_⟩
      simp [List.filter_append, hp, hmid, hfin, t3, isRequest]

/-- Key-less ticks from an orchestrator whose `lastKeypadTime` is zero: the orchestrator
records no request of its own and `lastKeypadTime` stays zero, however the run ends. -/
theorem run_keyless (P : Platform) (H : Hooks) :
    ∀ (envs : List Env) (tc : TankControllerLib), tc.lastKeypadTime = 0 →
      (∀ e ∈ envs, e.key = NO_KEY) →
      (run P H tc envs).tc.lastKeypadTime = 0 ∧
      ∃ seg, (run P H tc envs).tc.trace = tc.trace ++ seg ∧ seg.filter isRequest = [] := by
  intro envs
  induction envs with
  | nil =>
    intro tc h0 _
    exact ⟨h0, [], by simp [run, Outcome.tc]⟩
  | cons env envs ih =>
    intro tc h0 hkeys
    have hk : env.key = NO_KEY := hkeys env (List.mem_cons_self _ _)
    obtain ⟨seg, s1, s2⟩ := loop_requests P H env tc
    have hquiet : (loop P H env tc).tc.lastKeypadTime = 0 ∧ seg.filter isRequest = [] := by
      rcases s2 with ⟨_, hl, hf, _⟩ | ⟨_, hne, _⟩ | ⟨hnk, _⟩
      · exact ⟨by rw [hl, h0], hf⟩
      · exact absurd h0 hne
      · exact absurd hk hnk
    cases hl : loop P H env tc with
    | abort t =>
      rw [hl] at s1 hquiet
      simp only [Outcome.tc] at s1 hquiet
      simp only [run, hl, andThen_abort, Outcome.tc]
      exact ⟨hquiet.1, seg, s1, hquiet.2⟩
    | ok t =>
      rw [hl] at s1 hquiet
      simp only [Outcome.tc] at s1 hquiet
      obtain ⟨i1, seg2, i2, i3⟩ := ih t hquiet.1
        (fun e he => hkeys e (List.mem_cons_of_mem _ he))
      simp only [run, hl, andThen_ok]
      refine ⟨i1, seg ++ seg2, ?_, ?_⟩
      · rw [i2, s1, List.append_assoc]
      · simp [List.filter_append, hquiet.2, i3]

/-- The log step of one completed tick: a row is emitted exactly when `nextWriteTime` has
been reached, and `nextWriteTime` then moves to the next whole second. -/
theorem loop_log (P : Platform) (H : Hooks) (env : Env) (tc tc1 : TankControllerLib)
    (h : loop P H env tc = .ok tc1) :
    (since tc tc1).any isAppend = decide (tc.nextWriteTime ≤ u32 env.msNow) ∧
    tc1.nextWriteTime =
      (if tc.nextWriteTime ≤ u32 env.msNow then u32 (u32 env.msNow / 1000 * 1000 + 1000)
       else tc.nextWriteTime) := by
  obtain ⟨pre, mid, st, h1, h2, h3⟩ := loop_shape P H env tc tc1 h
  constructor
  · have hpre : pre.any isAppend = false := by
      rcases h2 with ⟨_, hp, _⟩ | ⟨_, _, _, _, _, hp, _⟩ | ⟨_, hp⟩ <;> simp [hp, isAppend]
    have hmid : mid.any isAppend = false := by
      rcases h3 with hm | ⟨a, b, hm⟩ <;> simp [hm, isAppend]
    unfold since
    rw [h1]
    simp only [List.append_assoc, List.drop_left]
    by_cases hw : tc.nextWriteTime ≤ u32 env.msNow
    · simp [hw, isAppend]
    · simp only [List.any_append, hpre, hmid]
      simp [hw, isAppend]
  · obtain ⟨_, _, _, _, a2, _⟩ := handleUI_tc P H env (blink env tc)
    cases hu : handleUI P H env (blink env tc) with
    | abort t => simp [loop, hu] at h
    | ok t =>
      rw [hu] at a2
      simp only [Outcome.tc] at a2
      simp only [loop, hu, andThen_ok, Outcome.ok.injEq] at h
      subst h
      have hb : (blink env tc).nextWriteTime = tc.nextWriteTime := by rw [blink_eq]
      have ht : (updateControls env t).nextWriteTime = tc.nextWriteTime := by
        rw [← hb, ← a2]; rfl
      show (writeDataToSD P env (updateControls env t)).nextWriteTime = _
      unfold writeDataToSD
      by_cases hw : tc.nextWriteTime ≤ u32 env.msNow
      · simp [ht, hw, note]
      · simp [ht, hw]

/-- Whole seconds: `nextWriteTime`, set after an emission at `last`, is reached by `t`
exactly when `t` lies in a later whole second than `last`. -/
theorem next_second_le (last t : Nat) :
    last / 1000 * 1000 + 1000 ≤ t ↔ last / 1000 < t / 1000 := by
  omega

/-- Every clock value that `cadenceSpec` emits after `last` lies in a later whole second. -/
theorem cadenceSpec_later (ts : List Nat) :
    ∀ last x, x ∈ cadenceSpec (some last) ts → last / 1000 < x / 1000 := by
  induction ts with
  | nil => intro last x hx; simp [cadenceSpec] at hx
  | cons t ts ih =>
    intro last x hx
    by_cases hlt : last / 1000 < t / 1000
    · simp only [cadenceSpec, hlt, if_true, List.mem_cons] at hx
      rcases hx with hx | hx
      · rw [hx]; exact hlt
      · exact lt_trans hlt (ih t x hx)
    · simp only [cadenceSpec, hlt, if_false] at hx
      exact ih last x hx

/-- Any two clock values that `cadenceSpec` emits lie in different whole seconds. -/
theorem cadenceSpec_pairwise (ts : List Nat) :
    ∀ start, List.Pairwise (fun a b => a / 1000 < b / 1000) (cadenceSpec start ts) := by
  induction ts with
  | nil => intro start; cases start <;> simp [cadenceSpec]
  | cons t ts ih =>
    intro start
    cases start with
    | none =>
      simp only [cadenceSpec, List.pairwise_cons]
      exact ⟨fun x hx => cadenceSpec_later ts t x hx, ih (some t)⟩
    | some last =>
      by_cases hlt : last / 1000 < t / 1000
      · simp only [cadenceSpec, hlt, if_true, List.pairwise_cons]
        exact ⟨fun x hx => cadenceSpec_later ts t x hx, ih (some t)⟩
      · simp only [cadenceSpec, hlt, if_false]
        exact ih (some last)

/-- The rows of a completed run follow `cadenceSpec`, from the state after an emission at
`last`. -/
theorem rowTimes_after (P : Platform) (H : Hooks) :
    ∀ (envs : List Env) (tc : TankControllerLib) (last : Nat),
      last < 4294967000 → tc.nextWriteTime = last / 1000 * 1000 + 1000 →
      (∀ e ∈ envs, e.msNow < 4294967000) →
      (∃ tcN, run P H tc envs = .ok tcN) →
      rowTimes P H tc envs = cadenceSpec (some last) (envs.map (fun e => e.msNow)) := by
  intro envs
  induction envs with
  | nil => intro tc last _ _ _ _; simp [rowTimes, cadenceSpec]
  | cons env envs ih =>
    intro tc last hlast hnw hb hrun
    have henv : env.msNow < 4294967000 := hb env (List.mem_cons_self _ _)
    have hu : u32 env.msNow = env.msNow := by unfold u32; omega
    cases hl : loop P H env tc with
    | abort t =>
      obtain ⟨tcN, hN⟩ := hrun
      simp [run, hl] at hN
    | ok t =>
      obtain ⟨l1, l2⟩ := loop_log P H env tc t hl
      have hrun2 : ∃ tcN, run P H t envs = .ok tcN := by
        obtain ⟨tcN, hN⟩ := hrun
        exact ⟨tcN, by simpa [run, hl] using hN⟩
      have hb2 : ∀ e ∈ envs, e.msNow < 4294967000 := fun e he => hb e (List.mem_cons_of_mem _ he)
      rw [hu, hnw] at l1 l2
      by_cases hlt : last / 1000 < env.msNow / 1000
      · have hle : last / 1000 * 1000 + 1000 ≤ env.msNow := (next_second_le last env.msNow).mpr hlt
        have hnw2 : t.nextWriteTime = env.msNow / 1000 * 1000 + 1000 := by
          rw [l2, if_pos hle]; unfold u32; omega
        simp only [rowTimes, hl, l1, hle, decide_True, if_true, hu, List.map_cons, cadenceSpec, hlt,
          List.singleton_append]
        rw [ih t env.msNow henv hnw2 hb2 hrun2]
      · have hle : ¬ last / 1000 * 1000 + 1000 ≤ env.msNow :=
          fun h => hlt ((next_second_le last env.msNow).mp h)
        have hnw2 : t.nextWriteTime = last / 1000 * 1000 + 1000 := by
          rw [l2, if_neg hle]
        simp only [rowTimes, hl, l1, hle, decide_False, List.map_cons, cadenceSpec, hlt,
          if_false, List.nil_append, Bool.false_eq_true]
        rw [ih t last hlast hnw2 hb2 hrun2]

/-! ## The transition protocol: `setNextState` and `updateState` -/

/-- C3, the claim as written fails: with nothing pending, `setNextState(s, true)` succeeds
but the pending slot does not hold `s` afterwards; it is empty and `s` is already the current
state. -/
theorem setNextState_immediate_leaves_pending_empty :
    (holding (MainMenu 0) 0).nextState = none ∧
    setNextState idleHooks (quietEnv 0) (holding (MainMenu 0) 0) (SetKP 1) true =
      .ok { state := SetKP 1, nextState := none, lastKeypadTime := 0, nextWriteTime := 0,
            trace := [.setNextState (SetKP 1) true, .delete (MainMenu 0), .start (SetKP 1)] } ∧
    (none : Option UIState) ≠ some (SetKP 1) := by
  decide

/-- C3, amended: `setNextState` aborts, whatever the update flag, when a transition is
pending, and the members are then as before the call; with nothing pending and
`update == false` it succeeds and the pending slot holds exactly the requested state, the
other members being untouched, so a deferred request fails if and only if a transition is
pending; with nothing pending and `update == true` the stored request is applied by
`updateState` inside the call: for a requested object other than the current one, the old
state is released, the requested state is current and the pending slot is empty when its
`start()` hook is entered, and the call returns with exactly that orchestrator when the hook
leaves the slots alone. -/
theorem setNextState_pending (H : Hooks) (env : Env) (tc : TankControllerLib)
    (newState : UIState) :
    (∀ update, tc.nextState ≠ none →
        setNextState H env tc newState update
          = .abort { tc with trace := tc.trace ++ [.setNextState newState update] }) ∧
    (tc.nextState = none →
        setNextState H env tc newState false
          = .ok { tc with nextState := some newState,
                          trace := tc.trace ++ [.setNextState newState false] }) ∧
    ((∃ tc1, setNextState H env tc newState false = .abort tc1) ↔ tc.nextState ≠ none) ∧
    (tc.nextState = none →
        setNextState H env tc newState true
          = updateState H env { tc with nextState := some newState,
                                        trace := tc.trace ++ [.setNextState newState true] }) ∧
    (tc.nextState = none → newState.addr ≠ tc.state.addr →
        setNextState H env tc newState true
          = callHook { tc with state := newState, nextState := none,
                               trace := tc.trace ++ [.setNextState newState true,
                                 .delete tc.state, .start newState] }
              (H.start newState env) ∧
        (H.start newState env ⟨newState, none⟩ = some ⟨newState, none⟩ →
          setNextState H env tc newState true
            = .ok { tc with state := newState, nextState := none,
                            trace := tc.trace ++ [.setNextState newState true,
                              .delete tc.state, .start newState] })) := by
  refine ⟨?_, ?_, ?_, ?_, ?_⟩
  · intro update h
    cases hn : tc.nextState with
    | none => exact absurd hn h
    | some q => simp [setNextState, note, hn]
  · intro h
    simp [setNextState, note, h]
  · cases hn : tc.nextState with
    | none => simp [setNextState, note, hn]
    | some q => simp [setNextState, note, hn]
  · intro h
    simp [setNextState, note, h]
  · intro h hne
    have h1 : setNextState H env tc newState true
        = callHook { tc with state := newState, nextState := none,
                             trace := tc.trace ++ [.setNextState newState true,
                               .delete tc.state, .start newState] }
            (H.start newState env) := by
      simp [setNextState, note, h, updateState, Ne.symm hne]
    refine ⟨h1, ?_⟩
    intro hstart
    rw [h1]
    simp [callHook, hstart]

/-- Witness of `setNextState_pending`: on a fresh orchestrator, a deferred request of
`SetKP` is stored in the pending slot, and an immediate request of `SetKP` makes it current
with the pending slot empty. -/
theorem setNextState_pending_witness :
    (construct.nextState = none ∧
      setNextState idleHooks (quietEnv 0) construct (SetKP 1) false
        = .ok { construct with nextState := some (SetKP 1),
                               trace := construct.trace ++ [.setNextState (SetKP 1) false] }) ∧
    setNextState idleHooks (quietEnv 0) construct (SetKP 1) true
      = .ok { construct with state := SetKP 1, nextState := none,
                             trace := construct.trace ++ [.setNextState (SetKP 1) true,
                               .delete construct.state, .start (SetKP 1)] } :=
  ⟨⟨rfl, (setNextState_pending idleHooks (quietEnv 0) construct (SetKP 1)).2.1 rfl⟩,
   ((setNextState_pending idleHooks (quietEnv 0) construct (SetKP 1)).2.2.2.2
      rfl (by decide)).2 rfl⟩

/-- C4: with a pending state `p` that is not the current object, `updateState` releases the
current state, makes `p` current, empties the pending slot and invokes `p->start()` once, in
that order; when that hook leaves the slots alone, the orchestrator afterwards has `p` current
and nothing pending.  With nothing pending, `updateState` returns the orchestrator unchanged
and records no call, so applying it twice is the same as applying it once. -/
theorem updateState_contract (H : Hooks) (env : Env) (tc : TankControllerLib) :
    (∀ p, tc.nextState = some p → p.addr ≠ tc.state.addr →
        updateState H env tc
          = callHook { tc with state := p, nextState := none,
                               trace := tc.trace ++ [.delete tc.state, .start p] }
              (H.start p env) ∧
        (H.start p env ⟨p, none⟩ = some ⟨p, none⟩ →
          updateState H env tc
            = .ok { tc with state := p, nextState := none,
                            trace := tc.trace ++ [.delete tc.state, .start p] })) ∧
    (tc.nextState = none →
        updateState H env tc = .ok tc ∧
        (updateState H env tc).andThen (updateState H env) = updateState H env tc) := by
  refine ⟨?_, ?_⟩
  · intro p hp hne
    have h1 := updateState_some H env tc p hp (fun h => hne h.symm)
    refine ⟨h1, ?_⟩
    intro hstart
    rw [h1]
    simp [callHook, hstart]
  · intro h
    have h1 := updateState_none H env tc h
    refine ⟨h1, ?_⟩
    rw [h1, andThen_ok, h1]

/-- Witness of `updateState_contract`: the pending `Wait` replaces the current `SetKP`. -/
theorem updateState_contract_witness :
    updateState idleHooks (quietEnv 0) { holding (SetKP 1) 0 with nextState := some (Wait 2) }
      = .ok { state := Wait 2, nextState := none, lastKeypadTime := 0, nextWriteTime := 0,
              trace := [.delete (SetKP 1), .start (Wait 2)] } :=
  ((updateState_contract idleHooks (quietEnv 0)
      { holding (SetKP 1) 0 with nextState := some (Wait 2) }).1
    (Wait 2) rfl (by decide)).2 rfl

/-- C7: with nothing pending, `setNextState(s, true)` for a state object `s` other than the
current one makes `s` current at once: `stateName()` returns the name of `s` and the pending
slot is empty (the entry hook of `s` leaving the slots alone).  A state `w` requested with
`update == false` stays pending: `stateName()` still returns the old name, until the next
`loop()`; after that one `loop()` with no key pressed `stateName()` returns the name of `w`
(its entry hook leaving the slots alone and its per-tick hook keeping `w` current). -/
theorem setNextState_timing (P : Platform) (H : Hooks) (env env2 : Env)
    (tc : TankControllerLib) (s w : UIState) (pend : Option UIState)
    (hnone : tc.nextState = none)
    (hs : s.addr ≠ tc.state.addr)
    (hsStart : H.start s env ⟨s, none⟩ = some ⟨s, none⟩)
    (hw : w.addr ≠ tc.state.addr)
    (hkey : env2.key = NO_KEY)
    (hwStart : H.start w env2 ⟨w, none⟩ = some ⟨w, none⟩)
    (hwLoop : H.loop w env2 ⟨w, none⟩ = some ⟨w, pend⟩) :
    (∃ tc1, setNextState H env tc s true = .ok tc1 ∧
        tc1.state = s ∧ stateName tc1 = s.name ∧ tc1.nextState = none) ∧
    (∃ tc1, setNextState H env tc w false = .ok tc1 ∧
        stateName tc1 = stateName tc ∧ tc1.nextState = some w ∧
        ∃ tc2, loop P H env2 tc1 = .ok tc2 ∧ tc2.state = w ∧ stateName tc2 = w.name) := by
  constructor
  · refine ⟨{ tc with state := s, nextState := none,
                      trace := tc.trace ++ [.setNextState s true, .delete tc.state, .start s] },
      ?_, rfl, rfl, rfl⟩
    simp [setNextState, note, hnone, updateState, Ne.symm hs, callHook, hsStart]
  · refine ⟨{ tc with nextState := some w, trace := tc.trace ++ [.setNextState w false] },
      ?_, rfl, rfl, ?_⟩
    · simp [setNextState, note, hnone]
    · have hstep : ∀ t : TankControllerLib, t.nextState = some w →
          keypadStep P H env2 t = .ok t := by
        intro t ht
        by_cases h0 : t.lastKeypadTime = 0
        · simp [keypadStep, hkey, h0]
        · by_cases hc : isInCalibration t = true
          · simp [keypadStep, hkey, h0, hc]
          · simp [keypadStep, hkey, h0, hc, ht]
      simp [loop, handleUI, blink_eq, hstep, updateState, Ne.symm hw, note, callHook,
        hwStart, loopStep, hwLoop, stateName, writeDataToSD_trace, updateControls]

/-- Witness of `setNextState_timing`: the steps of the SetKP test, `SetKP` entered at once and
`Wait` requested without update, then one `loop()` with no key. -/
theorem setNextState_timing_witness :
    (∃ tc1, setNextState idleHooks (quietEnv 0) construct (SetKP 1) true = .ok tc1 ∧
        tc1.state = SetKP 1 ∧ stateName tc1 = (SetKP 1).name ∧ tc1.nextState = none) ∧
    (∃ tc1, setNextState idleHooks (quietEnv 0) construct (Wait 2) false = .ok tc1 ∧
        stateName tc1 = stateName construct ∧ tc1.nextState = some (Wait 2) ∧
        ∃ tc2, loop demoPlatform idleHooks (quietEnv 15) tc1 = .ok tc2 ∧ tc2.state = Wait 2 ∧
          stateName tc2 = (Wait 2).name) :=
  setNextState_timing demoPlatform idleHooks (quietEnv 0) (quietEnv 15) construct
    (SetKP 1) (Wait 2) none rfl (by decide) rfl (by decide) rfl rfl rfl

/-! ## The tick -/

/-- C8: every completed `loop()` records its calls in this order: the LED write, then the
keypad statement (the key handler of the current state when a key is pressed), then the
application of the pending transition, then the per-tick hook, then the two controller
updates, then the log row, then the network relay.  Consequently, when a key is pressed,
nothing is pending beforehand and the key handler requests a state `s` (not the current
object, with an entry hook that leaves the slots alone and a per-tick hook that keeps `s`
current), the same tick releases the old state, runs `s->start()`, and it is `s` whose
`loop()` hook runs and whose `isInCalibration()` decides the log row. -/
theorem loop_order (P : Platform) (H : Hooks) (env : Env) (tc : TankControllerLib) :
    (∀ tc1, loop P H env tc = .ok tc1 →
      ∃ pre mid st,
        tc1.trace = tc.trace
          ++ [Event.digitalWrite (decide (u32 env.millisBlink / 1000 % 2 = 0))]
          ++ pre ++ mid ++ [Event.loop st]
          ++ [Event.updateTemperatureControl env.tempRunningAverage,
              Event.updatePHControl env.ph]
          ++ (if tc.nextWriteTime ≤ u32 env.msNow then
                [Event.appendData header (logRow P env (isInCalibration tc1))] else [])
          ++ [Event.pushingBoxLoop] ∧
        (pre = [] ∨ pre = [Event.setNextState (MainMenu (freshAddr tc)) false] ∨
          (env.key ≠ NO_KEY ∧ pre = [Event.handleKey tc.state env.key])) ∧
        (env.key ≠ NO_KEY → pre = [Event.handleKey tc.state env.key]) ∧
        (mid = [] ∨ ∃ a b, mid = [Event.delete a, Event.start b])) ∧
    (∀ s pend, env.key ≠ NO_KEY → tc.nextState = none →
      H.handleKey tc.state env.key env ⟨tc.state, none⟩ = some ⟨tc.state, some s⟩ →
      s.addr ≠ tc.state.addr →
      H.start s env ⟨s, none⟩ = some ⟨s, none⟩ →
      H.loop s env ⟨s, none⟩ = some ⟨s, pend⟩ →
      ∃ tc1, loop P H env tc = .ok tc1 ∧ tc1.state = s ∧
        tc1.trace = tc.trace
          ++ [Event.digitalWrite (decide (u32 env.millisBlink / 1000 % 2 = 0)),
              Event.handleKey tc.state env.key,
              Event.delete tc.state, Event.start s,
              Event.loop s,
              Event.updateTemperatureControl env.tempRunningAverage,
              Event.updatePHControl env.ph]
          ++ (if tc.nextWriteTime ≤ u32 env.msNow then
                [Event.appendData header (logRow P env s.isInCalibration)] else [])
          ++ [Event.pushingBoxLoop]) := by
  constructor
  · intro tc1 h
    obtain ⟨pre, mid, st, h1, h2, h3⟩ := loop_shape P H env tc tc1 h
    refine ⟨pre, mid, st, h1, ?_, ?_, h3⟩
    · rcases h2 with ⟨_, hp, _⟩ | ⟨_, _, _, _, _, hp, _⟩ | ⟨hk, hp⟩
      · exact Or.inl hp
      · exact Or.inr (Or.inl hp)
      · exact Or.inr (Or.inr ⟨hk, hp⟩)
    · intro hk
      rcases h2 with ⟨hk2, _, _⟩ | ⟨hk2, _⟩ | ⟨_, hp⟩
      · exact absurd hk2 hk
      · exact absurd hk2 hk
      · exact hp
  · intro s pend hk hnone hreq hs hstart hloop
    have hkeypad : keypadStep P H env (blink env tc)
        = .ok { tc with nextState := some s, lastKeypadTime := u32 env.millisUI,
                        trace := tc.trace
                          ++ [Event.digitalWrite (decide (u32 env.millisBlink / 1000 % 2 = 0)),
                              Event.handleKey tc.state env.key] } := by
      simp [keypadStep, hk, blink_eq, callHook, note, hnone, hreq]
    have happly : updateState H env
          { tc with nextState := some s, lastKeypadTime := u32 env.millisUI,
                    trace := tc.trace
                      ++ [Event.digitalWrite (decide (u32 env.millisBlink / 1000 % 2 = 0)),
                          Event.handleKey tc.state env.key] }
        = .ok { tc with state := s, nextState := none, lastKeypadTime := u32 env.millisUI,
                        trace := tc.trace
                          ++ [Event.digitalWrite (decide (u32 env.millisBlink / 1000 % 2 = 0)),
                              Event.handleKey tc.state env.key,
                              Event.delete tc.state, Event.start s] } := by
      simp [updateState, Ne.symm hs, note, callHook, hstart]
    have hui : handleUI P H env (blink env tc)
        = .ok { tc with state := s, nextState := pend, lastKeypadTime := u32 env.millisUI,
                        trace := tc.trace
                          ++ [Event.digitalWrite (decide (u32 env.millisBlink / 1000 % 2 = 0)),
                              Event.handleKey tc.state env.key,
                              Event.delete tc.state, Event.start s, Event.loop s] } := by
      simp [handleUI, hkeypad, happly, loopStep, note, callHook, hloop]
    refine ⟨_, by rw [loop, hui, andThen_ok], ?_, ?_⟩
    · simp [note, (writeDataToSD_trace P env _).1, updateControls]
    · simp [note, (writeDataToSD_trace P env _).2.2.2, updateControls, isInCalibration]

/-- Witness of `loop_order`: key `A` pressed in `SetKP`, whose handler requests `Wait`. -/
theorem loop_order_witness :
    ∃ tc1, loop demoPlatform (requestingHooks (Wait 2)) (pressedEnv 15 'A')
        (holding (SetKP 1) 0) = .ok tc1 ∧
      tc1.state = Wait 2 ∧
      tc1.trace = (holding (SetKP 1) 0).trace
        ++ [Event.digitalWrite (decide (u32 (pressedEnv 15 'A').millisBlink / 1000 % 2 = 0)),
            Event.handleKey (holding (SetKP 1) 0).state (pressedEnv 15 'A').key,
            Event.delete (holding (SetKP 1) 0).state, Event.start (Wait 2),
            Event.loop (Wait 2),
            Event.updateTemperatureControl (pressedEnv 15 'A').tempRunningAverage,
            Event.updatePHControl (pressedEnv 15 'A').ph]
        ++ (if (holding (SetKP 1) 0).nextWriteTime ≤ u32 (pressedEnv 15 'A').msNow then
              [Event.appendData header
                (logRow demoPlatform (pressedEnv 15 'A') (Wait 2).isInCalibration)]
            else [])
        ++ [Event.pushingBoxLoop] :=
  (loop_order demoPlatform (requestingHooks (Wait 2)) (pressedEnv 15 'A')
      (holding (SetKP 1) 0)).2
    (Wait 2) none (by decide) rfl rfl (by decide) rfl rfl

/-- C1, the claim as written fails: a tick whose current state is `PHCalibrationHigh`, for
which `isInCalibration()` is true before and after the state-machine step, still calls
`updateControl` on both controllers. -/
theorem loop_in_calibration_updates_controls :
    loop demoPlatform idleHooks (quietEnv 70000) (holding (PHCalibrationHigh 7) 5) =
      .ok { state := PHCalibrationHigh 7, nextState := none, lastKeypadTime := 5,
            nextWriteTime := 71000,
            trace := [.digitalWrite true, .loop (PHCalibrationHigh 7),
                      .updateTemperatureControl (quietEnv 70000).tempRunningAverage,
                      .updatePHControl (quietEnv 70000).ph,
                      .appendData header (logRow demoPlatform (quietEnv 70000) true),
                      .pushingBoxLoop] } ∧
    isInCalibration (holding (PHCalibrationHigh 7) 5) = true ∧
    (PHCalibrationHigh 7).isInCalibration = true := by
  decide

/-- C1, amended: in every tick that runs to completion, calibration state or not,
`TemperatureControl::updateControl` and `PHControl::updateControl` are each invoked exactly
once, in this order, with the readings `getRunningAverage()` and `getPh()` of that tick, and
they are invoked right after `handleUI` has returned: the calls of the tick are those of
`blink` and `handleUI` (none of them a controller update), then the two controller updates,
then the log row when one is due, then the network relay. -/
theorem loop_updates_controls (P : Platform) (H : Hooks) (env : Env)
    (tc tc1 : TankControllerLib) (h : loop P H env tc = .ok tc1) :
    ∃ t, handleUI P H env (blink env tc) = .ok t ∧
      t.trace = tc.trace ++ since tc t ∧
      (since tc t).filter isControlUpdate = [] ∧
      tc1.trace = t.trace
        ++ [Event.updateTemperatureControl env.tempRunningAverage, Event.updatePHControl env.ph]
        ++ (if tc.nextWriteTime ≤ u32 env.msNow then
              [Event.appendData header (logRow P env (isInCalibration tc1))] else [])
        ++ [Event.pushingBoxLoop] ∧
      since tc tc1 = since tc t
        ++ [Event.updateTemperatureControl env.tempRunningAverage, Event.updatePHControl env.ph]
        ++ (if tc.nextWriteTime ≤ u32 env.msNow then
              [Event.appendData header (logRow P env (isInCalibration tc1))] else [])
        ++ [Event.pushingBoxLoop] ∧
      (since tc tc1).filter isControlUpdate =
        [Event.updateTemperatureControl env.tempRunningAverage, Event.updatePHControl env.ph] := by
  obtain ⟨pre, mid, fin, a1, a2, a3, a4, a5, _⟩ := handleUI_tc P H env (blink env tc)
  cases hu : handleUI P H env (blink env tc) with
  | abort t => simp [loop, hu] at h
  | ok t =>
    rw [hu] at a1 a2
    simp only [Outcome.tc] at a1 a2
    simp only [loop, hu, andThen_ok, Outcome.ok.injEq] at h
    subst h
    have hb := blink_eq env tc
    obtain ⟨w1, _, _, w4⟩ := writeDataToSD_trace P env (updateControls env t)
    have hpre : pre.filter isControlUpdate = [] := by
      rcases a3 with ⟨_, hp, _⟩ | ⟨_, _, _, _, _, hp, _⟩ | ⟨_, hp⟩ <;> simp [hp, isControlUpdate]
    have hmid : mid.filter isControlUpdate = [] := by
      rcases a4 with hm | ⟨a, b, hm⟩ <;> simp [hm, isControlUpdate]
    have hfin : fin.filter isControlUpdate = [] := by
      rcases a5 with hf | ⟨st, hf⟩ <;> simp [hf, isControlUpdate]
    have ht : t.trace = tc.trace
        ++ ([Event.digitalWrite (decide (u32 env.millisBlink / 1000 % 2 = 0))]
            ++ pre ++ mid ++ fin) := by
      rw [a1, hb]; simp
    have hsince : since tc t
        = [Event.digitalWrite (decide (u32 env.millisBlink / 1000 % 2 = 0))]
            ++ pre ++ mid ++ fin := by
      unfold since
      rw [ht, List.drop_left]
    have hquiet : (since tc t).filter isControlUpdate = [] := by
      rw [hsince]
      simp [List.filter_append, hpre, hmid, hfin, isControlUpdate]
    have hnw : (updateControls env t).nextWriteTime = tc.nextWriteTime := by
      have : (blink env tc).nextWriteTime = tc.nextWriteTime := by rw [hb]
      rw [← this, ← a2]; rfl
    have hcal : isInCalibration (note (writeDataToSD P env (updateControls env t))
        Event.pushingBoxLoop) = isInCalibration (updateControls env t) := by
      simp [isInCalibration, note, w1]
    have htrace : (note (writeDataToSD P env (updateControls env t))
          Event.pushingBoxLoop).trace = t.trace
        ++ [Event.updateTemperatureControl env.tempRunningAverage, Event.updatePHControl env.ph]
        ++ (if tc.nextWriteTime ≤ u32 env.msNow then
              [Event.appendData header (logRow P env
                (isInCalibration (note (writeDataToSD P env (updateControls env t))
                  Event.pushingBoxLoop)))] else [])
        ++ [Event.pushingBoxLoop] := by
      rw [hcal]
      simp only [note, w4, hnw]
      simp [updateControls, note]
    have hrow : (if tc.nextWriteTime ≤ u32 env.msNow then
        [Event.appendData header (logRow P env
          (isInCalibration (note (writeDataToSD P env (updateControls env t))
            Event.pushingBoxLoop)))] else []).filter isControlUpdate = [] := by
      split <;> simp [isControlUpdate]
    have hsince1 : since tc (note (writeDataToSD P env (updateControls env t))
          Event.pushingBoxLoop) = since tc t
        ++ [Event.updateTemperatureControl env.tempRunningAverage, Event.updatePHControl env.ph]
        ++ (if tc.nextWriteTime ≤ u32 env.msNow then
              [Event.appendData header (logRow P env
                (isInCalibration (note (writeDataToSD P env (updateControls env t))
                  Event.pushingBoxLoop)))] else [])
        ++ [Event.pushingBoxLoop] := by
      rw [hsince]
      unfold since
      rw [htrace, ht]
      simp only [List.append_assoc, List.drop_left]
    refine ⟨t, rfl, ?_, hquiet, htrace, hsince1, ?_⟩
    · rw [hsince]; exact ht
    · rw [hsince1]
      simp only [List.filter_append, hquiet, hrow]
      simp [isControlUpdate]

/-- Witness of `loop_updates_controls`: the tick of a calibration state. -/
theorem loop_updates_controls_witness :
    ∃ t, handleUI demoPlatform idleHooks (quietEnv 70000)
          (blink (quietEnv 70000) (holding (PHCalibrationHigh 7) 5)) = .ok t ∧
      t.trace = (holding (PHCalibrationHigh 7) 5).trace
        ++ since (holding (PHCalibrationHigh 7) 5) t ∧
      (since (holding (PHCalibrationHigh 7) 5) t).filter isControlUpdate = [] ∧
      (loop demoPlatform idleHooks (quietEnv 70000) (holding (PHCalibrationHigh 7) 5)).tc.trace
        = t.trace
        ++ [Event.updateTemperatureControl (quietEnv 70000).tempRunningAverage,
            Event.updatePHControl (quietEnv 70000).ph]
        ++ (if (holding (PHCalibrationHigh 7) 5).nextWriteTime ≤ u32 (quietEnv 70000).msNow then
              [Event.appendData header (logRow demoPlatform (quietEnv 70000)
                (isInCalibration (loop demoPlatform idleHooks (quietEnv 70000)
                  (holding (PHCalibrationHigh 7) 5)).tc))] else [])
        ++ [Event.pushingBoxLoop] ∧
      since (holding (PHCalibrationHigh 7) 5)
          (loop demoPlatform idleHooks (quietEnv 70000) (holding (PHCalibrationHigh 7) 5)).tc
        = since (holding (PHCalibrationHigh 7) 5) t
        ++ [Event.updateTemperatureControl (quietEnv 70000).tempRunningAverage,
            Event.updatePHControl (quietEnv 70000).ph]
        ++ (if (holding (PHCalibrationHigh 7) 5).nextWriteTime ≤ u32 (quietEnv 70000).msNow then
              [Event.appendData header (logRow demoPlatform (quietEnv 70000)
                (isInCalibration (loop demoPlatform idleHooks (quietEnv 70000)
                  (holding (PHCalibrationHigh 7) 5)).tc))] else [])
        ++ [Event.pushingBoxLoop] ∧
      (since (holding (PHCalibrationHigh 7) 5)
          (loop demoPlatform idleHooks (quietEnv 70000)
            (holding (PHCalibrationHigh 7) 5)).tc).filter isControlUpdate =
        [Event.updateTemperatureControl (quietEnv 70000).tempRunningAverage,
         Event.updatePHControl (quietEnv 70000).ph] :=
  loop_updates_controls demoPlatform idleHooks (quietEnv 70000)
    (holding (PHCalibrationHigh 7) 5)
    (loop demoPlatform idleHooks (quietEnv 70000) (holding (PHCalibrationHigh 7) 5)).tc
    (by decide)

/-! ## The idle return -/

/-- C2, the claim as written fails: after `setNextState(new SeeDeviceAddress, true)` on a
fresh orchestrator no key was ever pressed; a tick at 70000 ms, more than the timeout of
60000 ms after the start, with no key, nothing pending and a state that is not a calibration
state, leaves `SeeDeviceAddress` current and requests nothing. -/
theorem handleUI_no_idle_return_without_keypress :
    setNextState idleHooks (quietEnv 0) construct (SeeDeviceAddress 1) true =
      .ok { state := SeeDeviceAddress 1, nextState := none, lastKeypadTime := 0,
            nextWriteTime := 0,
            trace := [.setNextState (SeeDeviceAddress 1) true, .delete (MainMenu 0),
                      .start (SeeDeviceAddress 1)] } ∧
    handleUI demoPlatform idleHooks (quietEnv 70000)
        { state := SeeDeviceAddress 1, nextState := none, lastKeypadTime := 0,
          nextWriteTime := 0,
          trace := [.setNextState (SeeDeviceAddress 1) true, .delete (MainMenu 0),
                    .start (SeeDeviceAddress 1)] } =
      .ok { state := SeeDeviceAddress 1, nextState := none, lastKeypadTime := 0,
            nextWriteTime := 0,
            trace := [.setNextState (SeeDeviceAddress 1) true, .delete (MainMenu 0),
                      .start (SeeDeviceAddress 1), .loop (SeeDeviceAddress 1)] } ∧
    (quietEnv 70000).key = NO_KEY ∧
    sub32 (quietEnv 70000).millisUI 0 > demoPlatform.IDLE_TIMEOUT ∧
    (SeeDeviceAddress 1).isInCalibration = false ∧
    SeeDeviceAddress 1 ≠ MainMenu 2 := by
  decide

/-- C2, amended: if the keypad returns `NO_KEY`, no transition is pending, `lastKeypadTime`
is not zero (a key was pressed since the start and since the last idle return) and the 32-bit
difference `millis() - lastKeypadTime` exceeds `IDLE_TIMEOUT`, then: when the current state is
not a calibration state, `handleUI` requests a new `MainMenu`, applies it and ends with
`MainMenu` current and `lastKeypadTime` zero (the hooks of `MainMenu` leaving it current);
when the current state is a calibration state, `handleUI` does nothing but call the per-tick
hook of the current state: no transition is requested and the state is unchanged (that hook
leaving it current). -/
theorem handleUI_idle_timeout (P : Platform) (H : Hooks) (env : Env) (tc : TankControllerLib)
    (hkey : env.key = NO_KEY) (hnone : tc.nextState = none)
    (hlast : tc.lastKeypadTime ≠ 0)
    (hidle : sub32 env.millisUI tc.lastKeypadTime > P.IDLE_TIMEOUT) :
    (isInCalibration tc = false →
      ∀ pend,
        H.start (MainMenu (freshAddr tc)) env ⟨MainMenu (freshAddr tc), none⟩
          = some ⟨MainMenu (freshAddr tc), none⟩ →
        H.loop (MainMenu (freshAddr tc)) env ⟨MainMenu (freshAddr tc), none⟩
          = some ⟨MainMenu (freshAddr tc), pend⟩ →
        handleUI P H env tc
          = .ok { tc with state := MainMenu (freshAddr tc), nextState := pend,
                          lastKeypadTime := 0,
                          trace := tc.trace ++
                            [Event.setNextState (MainMenu (freshAddr tc)) false,
                             Event.delete tc.state, Event.start (MainMenu (freshAddr tc)),
                             Event.loop (MainMenu (freshAddr tc))] }) ∧
    (isInCalibration tc = true →
      handleUI P H env tc = loopStep H env tc ∧
      ∀ pend, H.loop tc.state env ⟨tc.state, none⟩ = some ⟨tc.state, pend⟩ →
        handleUI P H env tc
          = .ok { tc with nextState := pend, trace := tc.trace ++ [Event.loop tc.state] }) := by
  constructor
  · intro hcal pend hstart hloop
    have hfresh : tc.state.addr ≠ (MainMenu (freshAddr tc)).addr := by
      simp [MainMenu, freshAddr]
    simp [handleUI, keypadStep, hkey, hlast, hcal, hnone, hidle, setNextState, note,
      updateState, callHook, loopStep, hfresh, hstart, hloop]
  · intro hcal
    have hui : handleUI P H env tc = loopStep H env tc := by
      simp [handleUI, keypadStep, hkey, hlast, hcal, updateState, hnone]
    refine ⟨hui, ?_⟩
    intro pend hloop
    rw [hui]
    simp [loopStep, callHook, note, hnone, hloop]

/-- Witness of `handleUI_idle_timeout`: `SeeDeviceAddress`, last key at 5 ms, tick at
70000 ms. -/
theorem handleUI_idle_timeout_witness :
    handleUI demoPlatform idleHooks (quietEnv 70000) (holding (SeeDeviceAddress 7) 5)
      = .ok { holding (SeeDeviceAddress 7) 5 with
              state := MainMenu (freshAddr (holding (SeeDeviceAddress 7) 5)),
              nextState := none, lastKeypadTime := 0,
              trace := (holding (SeeDeviceAddress 7) 5).trace ++
                [Event.setNextState (MainMenu (freshAddr (holding (SeeDeviceAddress 7) 5))) false,
                 Event.delete (holding (SeeDeviceAddress 7) 5).state,
                 Event.start (MainMenu (freshAddr (holding (SeeDeviceAddress 7) 5))),
                 Event.loop (MainMenu (freshAddr (holding (SeeDeviceAddress 7) 5)))] } :=
  (handleUI_idle_timeout demoPlatform idleHooks (quietEnv 70000)
      (holding (SeeDeviceAddress 7) 5) rfl rfl (by decide) (by decide)).1 rfl none rfl rfl

/-- C10: the idle return fires at most once per keypress.  In a run of ticks with no key
pressed: (1) from an orchestrator whose `lastKeypadTime` is zero (the initial value, no key
ever pressed) the orchestrator itself requests no transition, whatever the clock values, and
`lastKeypadTime` stays zero; (2) when the first tick meets the idle conditions, that tick
requests `MainMenu` and sets `lastKeypadTime` to zero, and the whole run, however long and
whatever the later clock values, contains this one request of the orchestrator and no
other. -/
theorem idle_return_once (P : Platform) (H : Hooks) (tc : TankControllerLib) (env : Env)
    (envs : List Env) (hkey : env.key = NO_KEY) (hkeys : ∀ e ∈ envs, e.key = NO_KEY) :
    (tc.lastKeypadTime = 0 →
      (since tc (run P H tc (env :: envs)).tc).filter isRequest = [] ∧
      (run P H tc (env :: envs)).tc.lastKeypadTime = 0) ∧
    (tc.lastKeypadTime ≠ 0 → isInCalibration tc = false → tc.nextState = none →
      sub32 env.millisUI tc.lastKeypadTime > P.IDLE_TIMEOUT →
      (since tc (loop P H env tc).tc).filter isRequest
        = [Event.setNextState (MainMenu (freshAddr tc)) false] ∧
      (loop P H env tc).tc.lastKeypadTime = 0 ∧
      (since tc (run P H tc (env :: envs)).tc).filter isRequest
        = [Event.setNextState (MainMenu (freshAddr tc)) false] ∧
      (run P H tc (env :: envs)).tc.lastKeypadTime = 0) := by
  constructor
  · intro h0
    obtain ⟨r1, seg, r2, r3⟩ := run_keyless P H (env :: envs) tc h0 (by
      intro e he
      rcases List.mem_cons.mp he with h | h
      · rw [h]; exact hkey
      · exact hkeys e h)
    refine ⟨?_, r1⟩
    unfold since
    rw [r2, List.drop_left]
    exact r3
  · intro hne hcal hnone hidle
    obtain ⟨seg, s1, s2⟩ := loop_requests P H env tc
    have hfire : (loop P H env tc).tc.lastKeypadTime = 0 ∧
        seg.filter isRequest = [Event.setNextState (MainMenu (freshAddr tc)) false] := by
      rcases s2 with ⟨_, _, _, hq⟩ | ⟨_, _, _, _, _, hl, hf⟩ | ⟨hnk, _⟩
      · exact absurd ⟨hne, hcal, hnone, hidle⟩ hq
      · exact ⟨hl, hf⟩
      · exact absurd hkey hnk
    have hfirst : (since tc (loop P H env tc).tc).filter isRequest
        = [Event.setNextState (MainMenu (freshAddr tc)) false] := by
      unfold since
      rw [s1, List.drop_left]
      exact hfire.2
    refine ⟨hfirst, hfire.1, ?_⟩
    cases hl : loop P H env tc with
    | abort t =>
      rw [hl] at hfirst hfire
      simp only [Outcome.tc] at hfirst hfire
      simp only [run, hl, andThen_abort, Outcome.tc]
      exact ⟨hfirst, hfire.1⟩
    | ok t =>
      rw [hl] at s1 hfire
      simp only [Outcome.tc] at s1 hfire
      obtain ⟨r1, seg2, r2, r3⟩ := run_keyless P H envs t hfire.1 hkeys
      simp only [run, hl, andThen_ok]
      refine ⟨?_, r1⟩
      unfold since
      rw [r2, s1, List.append_assoc, List.drop_left]
      simp [List.filter_append, hfire.2, r3]

/-- Witness of `idle_return_once`: two key-less ticks from the constructed orchestrator, and
two key-less ticks after a key at 5 ms went unanswered for more than the timeout. -/
theorem idle_return_once_witness :
    ((since construct
          (run demoPlatform idleHooks construct [quietEnv 100000, quietEnv 200000]).tc).filter
        isRequest = [] ∧
      (run demoPlatform idleHooks construct
          [quietEnv 100000, quietEnv 200000]).tc.lastKeypadTime = 0) ∧
    ((since (holding (SetKP 1) 5)
          (run demoPlatform idleHooks (holding (SetKP 1) 5)
            [quietEnv 100000, quietEnv 200000]).tc).filter isRequest
        = [Event.setNextState (MainMenu (freshAddr (holding (SetKP 1) 5))) false]) :=
  ⟨(idle_return_once demoPlatform idleHooks construct (quietEnv 100000) [quietEnv 200000] rfl
      (by intro e he; rw [List.mem_singleton.mp he]; rfl)).1 rfl,
   ((idle_return_once demoPlatform idleHooks (holding (SetKP 1) 5) (quietEnv 100000)
      [quietEnv 200000] rfl
      (by intro e he; rw [List.mem_singleton.mp he]; rfl)).2
      (by decide) rfl rfl (by decide)).2.2.1⟩

/-! ## The data log -/

/-- C6, the claim as written fails: from the constructed orchestrator, ticks at 999 ms and
at 1000 ms both emit a row, 1 ms apart. -/
theorem rows_one_millisecond_apart :
    rowTimes demoPlatform idleHooks construct [quietEnv 999, quietEnv 1000] = [999, 1000] ∧
    1000 - 999 < 1000 := by
  decide

/-- C6, amended: in a run of completed ticks that starts with `nextWriteTime` zero, with
clock values below 4294967000 (where the rounding to the next second does not wrap), the
first tick emits a row and a later tick emits a row exactly when its clock value lies in a
later whole second than the clock value of the previous emission; hence any two emissions
lie in different whole seconds. -/
theorem log_cadence (P : Platform) (H : Hooks) (tc : TankControllerLib) (envs : List Env)
    (hstart : tc.nextWriteTime = 0)
    (hclock : ∀ e ∈ envs, e.msNow < 4294967000)
    (hrun : ∃ tcN, run P H tc envs = .ok tcN) :
    rowTimes P H tc envs = cadenceSpec none (envs.map (fun e => e.msNow)) ∧
    List.Pairwise (fun a b => a / 1000 < b / 1000) (rowTimes P H tc envs) := by
  have hrows : rowTimes P H tc envs = cadenceSpec none (envs.map (fun e => e.msNow)) := by
    cases envs with
    | nil => simp [rowTimes, cadenceSpec]
    | cons env envs =>
      have henv : env.msNow < 4294967000 := hclock env (List.mem_cons_self _ _)
      have hu : u32 env.msNow = env.msNow := by unfold u32; omega
      cases hl : loop P H env tc with
      | abort t =>
        obtain ⟨tcN, hN⟩ := hrun
        simp [run, hl] at hN
      | ok t =>
        obtain ⟨l1, l2⟩ := loop_log P H env tc t hl
        rw [hu, hstart] at l1 l2
        have hnw : t.nextWriteTime = env.msNow / 1000 * 1000 + 1000 := by
          rw [l2, if_pos (Nat.zero_le _)]; unfold u32; omega
        have hrun2 : ∃ tcN, run P H t envs = .ok tcN := by
          obtain ⟨tcN, hN⟩ := hrun
          exact ⟨tcN, by simpa [run, hl] using hN⟩
        simp only [rowTimes, hl, l1, Nat.zero_le, decide_True, if_true, hu, List.map_cons,
          cadenceSpec, List.singleton_append]
        rw [rowTimes_after P H envs t env.msNow henv hnw
          (fun e he => hclock e (List.mem_cons_of_mem _ he)) hrun2]
  refine ⟨hrows, ?_⟩
  rw [hrows]
  exact cadenceSpec_pairwise _ none

/-- Witness of `log_cadence`: ticks at 999, 1000, 1500 and 2100 ms emit at 999, 1000 and
2100 ms. -/
theorem log_cadence_witness :
    rowTimes demoPlatform idleHooks construct
        [quietEnv 999, quietEnv 1000, quietEnv 1500, quietEnv 2100]
      = cadenceSpec none
          ([quietEnv 999, quietEnv 1000, quietEnv 1500, quietEnv 2100].map (fun e => e.msNow)) ∧
    List.Pairwise (fun a b => a / 1000 < b / 1000)
      (rowTimes demoPlatform idleHooks construct
        [quietEnv 999, quietEnv 1000, quietEnv 1500, quietEnv 2100]) :=
  log_cadence demoPlatform idleHooks construct
    [quietEnv 999, quietEnv 1000, quietEnv 1500, quietEnv 2100] rfl (by decide)
    ⟨(run demoPlatform idleHooks construct
        [quietEnv 999, quietEnv 1000, quietEnv 1500, quietEnv 2100]).tc, by decide⟩

end TankController
